import Mathlib

/-!
Verification development for `get-system-include-dirs` (src/src/main.rs),
a utility that extracts system include directories from C++ compilers.

The Rust source is shallowly embedded below.  Strings are modelled as Lean
`String` (a wrapper around `List Char`); the string primitives used by the
source (`str::lines`, `str::trim`, `str::contains`, `str::ends_with`,
`str::split`, `str::replace`) are re-implemented here as structurally
recursive functions over the character list so that every definition is
executable and kernel-reducible.  Whitespace is modelled by
`Char.isWhitespace` (space, tab, CR, LF) — the ASCII core of Rust's
`char::is_whitespace`; all markers and separators handled by the program
are ASCII.

Ambient effects of the Rust code are made explicit parameters:
  * `cfg!(windows)` / `cfg!(unix)` become a `Platform` record;
  * the `INCLUDE` environment variable becomes an `Option String`;
  * the compiler subprocess (`Command::new(..).output()`) becomes a
    function `String → Except String ProcessOutput` giving, per compiler
    path, either the OS launch-error text or the captured process output.
-/

/-- Model of Rust `str::trim` (Unicode whitespace restricted to the ASCII
whitespace recognised by `Char.isWhitespace`): drop whitespace from both
ends. -/
def strTrim (s : String) : String :=
  String.mk (((s.data.dropWhile Char.isWhitespace).reverse.dropWhile
    Char.isWhitespace).reverse)

/-- Substring occurrence test on character lists, structural recursion. -/
def containsSubList (pat : List Char) : List Char → Bool
  | [] => pat.isPrefixOf []
  | c :: rest => pat.isPrefixOf (c :: rest) || containsSubList pat rest

/-- Model of Rust `str::contains(pat)`: `pat` occurs as a substring of `s`. -/
def strContains (s pat : String) : Bool :=
  containsSubList pat.data s.data

/-- Model of Rust `str::ends_with(pat)`. -/
def strEndsWith (s pat : String) : Bool :=
  pat.data.reverse.isPrefixOf s.data.reverse

/-- Split a character list at every occurrence of the separator character;
model of Rust `str::split(sep)` (which yields `n+1` pieces for `n`
separators, empty pieces included).  The accumulator holds the current
piece reversed. -/
def splitAtChar (sep : Char) : List Char → List Char → List (List Char)
  | [], acc => [acc.reverse]
  | c :: cs, acc =>
    if c = sep then acc.reverse :: splitAtChar sep cs []
    else splitAtChar sep cs (c :: acc)

/-- Remove one trailing carriage return, if present. -/
def dropTrailingCR (l : List Char) : List Char :=
  if l.getLast? = some '\r' then l.dropLast else l

/-- Model of Rust `str::lines()`: split at `'\n'`; a piece followed by a
`'\n'` loses one trailing `'\r'` (CRLF line ending); a final empty piece
(text ending in a line ending) yields no line; a final nonempty piece is
kept verbatim (a trailing lone `'\r'` is not a line ending). -/
def rustLines (s : String) : List String :=
  let parts := splitAtChar '\n' s.data []
  let body := parts.dropLast.map (fun l => String.mk (dropTrailingCR l))
  match parts.getLast? with
  | some [] => body
  | some last => body ++ [String.mk last]
  | none => body

/-- Model of Rust `s.replace('\\', "/")`: a single-character pattern with a
single-character replacement maps each matching character in place. -/
def slashChar (c : Char) : Char :=
  if c = '\\' then '/' else c

/-- Backslash-to-forward-slash normalization of a path string. -/
def normalizeSlashes (s : String) : String :=
  String.mk (s.data.map slashChar)

/-- Whether a string contains a backslash character. -/
def hasBackslash (s : String) : Bool :=
  s.data.any (fun c => c == '\\')

/-- The start marker of the include search section (main.rs line 185). -/
def startMarker : String := "#include <...> search starts here:"

/-- The end marker of the include search section (main.rs line 191). -/
def endMarker : String := "End of search list."

/-- Error message of `parse_include_dirs` (main.rs line 210). -/
def noDirsMsg : String := "No include directories found in compiler output"

/-- Error message of `get_windows_include_dirs` (main.rs line 123). -/
def envMissingMsg : String := "INCLUDE environment variable not set"

/-- Model of `annotation_pattern.replace(trimmed, "")` for the regex
`\s*\(.*\)$` (main.rs lines 179 and 198), where `trimmed` is a single line
(no `'\n'`).  The regex matches iff the line ends with `')'` and contains a
`'('`; the leftmost-first match then spans from the whitespace run
preceding the first `'('` to the end of the line (`.*` is free to cross
every intervening parenthesis).  Replacing it with `""` therefore keeps
exactly the prefix before the first `'('`, minus the whitespace run the
`\s*` absorbed; since the caller immediately re-trims the result, keeping
that whitespace here (takeWhile up to the first `'('`) is equivalent. -/
def stripParenSuffix (t : String) : String :=
  if strEndsWith t ")" && t.data.contains '(' then
    String.mk (t.data.takeWhile (fun c => c != '('))
  else t

/-- The scanning loop of `parse_include_dirs` (main.rs lines 181-207):
processes the lines in order, threading the `in_include_section` flag and
the accumulated `dirs`; returning without recursing models `break`.  The
source's local bindings `trimmed` and `path` are written out in full. -/
def parseLines : List String → Bool → List String → List String
  | [], _, dirs => dirs
  | line :: rest, inSec, dirs =>
    if strContains (strTrim line) startMarker then
      parseLines rest true dirs
    else if strContains (strTrim line) endMarker then
      dirs
    else if inSec = true ∧ strTrim line ≠ "" then
      if strTrim (stripParenSuffix (strTrim line)) ≠ "" then
        parseLines rest inSec
          (dirs ++ [normalizeSlashes (strTrim (stripParenSuffix (strTrim line)))])
      else parseLines rest inSec dirs
    else
      parseLines rest inSec dirs

/-- The tail of `parse_include_dirs` (main.rs lines 209-213) applied to an
already-split line list: an empty harvest is the error
`noDirsMsg`, otherwise the collected list is returned. -/
def parseFromLines (ls : List String) : Except String (List String) :=
  if parseLines ls false [] = [] then Except.error noDirsMsg
  else Except.ok (parseLines ls false [])

/-- Model of `parse_include_dirs` (main.rs lines 176-214). -/
def parse_include_dirs (compiler_output : String) : Except String (List String) :=
  parseFromLines (rustLines compiler_output)

/-- Model of `get_windows_include_dirs` (main.rs lines 113-125): the
`INCLUDE` environment variable is the explicit `Option String` argument
(`none` models `env::var` failing). -/
def get_windows_include_dirs (includeVar : Option String) :
    Except String (List String) :=
  match includeVar with
  | some v =>
    Except.ok ((((splitAtChar ';' v.data []).map String.mk).filter
      (fun seg => seg != "")).map normalizeSlashes)
  | none => Except.error envMissingMsg

/-- Captured output of one compiler subprocess (`std::process::Output`):
exit status, decoded standard output and decoded diagnostic (stderr)
text.  The byte streams are modelled post-`from_utf8_lossy`, as text. -/
structure ProcessOutput where
  exitCode : Int
  stdoutText : String
  stderrText : String

/-- Model of `get_compiler_include_dirs` (main.rs lines 140-160): the
subprocess launch is the explicit argument (`Except.error e` models
`Command::output()` failing with OS error text `e`); on success only the
diagnostic stream of the captured output is parsed. -/
def get_compiler_include_dirs (spawn : Except String ProcessOutput) :
    Except String (List String) :=
  match spawn with
  | Except.error e => Except.error ("Failed to execute compiler: " ++ e)
  | Except.ok out => parse_include_dirs out.stderrText

/-- Model of Rust `Path::file_name` for `'/'`-separated paths: ignore
trailing separators, take the last component; `none` for an empty result
or a `..` component.  (Rust's normalization of a trailing `.` component is
not modelled; no claim exercises it.) -/
def fileName (p : String) : Option String :=
  let noSlash := (p.data.reverse.dropWhile (fun c => c == '/')).reverse
  let name := ((splitAtChar '/' noSlash []).getLast?).getD []
  if name = [] ∨ name = ['.', '.'] then none else some (String.mk name)

/-- Model of `is_msvc_like_compiler` (main.rs lines 94-102): the regex
`cl(?:\.exe)?$` has an unanchored start and an end anchor, so
`is_match(name)` holds exactly when `name` ends with `"cl"` or with
`"cl.exe"` (case-sensitively). -/
def is_msvc_like_compiler (compiler : String) : Bool :=
  match fileName compiler with
  | some name => strEndsWith name "cl" || strEndsWith name "cl.exe"
  | none => false

/-- The ambient compile-time platform tests `cfg!(windows)` / `cfg!(unix)`
of the Rust source, made an explicit value. -/
structure Platform where
  isWindows : Bool
  isUnix : Bool

/-- Model of `get_include_dirs` (main.rs lines 60-81), the strategy
selector, with the ambient platform, environment and subprocess runner as
explicit arguments. -/
def get_include_dirs (plat : Platform) (includeVar : Option String)
    (runCompiler : String → Except String ProcessOutput)
    (compiler : Option String) : Except String (List String) :=
  if plat.isWindows && compiler.isNone then
    get_windows_include_dirs includeVar
  else
    let compiler_path :=
      compiler.getD (if plat.isUnix then "/usr/bin/c++" else "c++")
    if plat.isWindows && is_msvc_like_compiler compiler_path then
      get_windows_include_dirs includeVar
    else
      get_compiler_include_dirs (runCompiler compiler_path)

example : rustLines "a\r\nb\nc\n" = ["a", "b", "c"] := by decide
example : rustLines "a\r" = ["a\r"] := by decide
example : rustLines "" = [] := by decide
example : strTrim "  a b \t" = "a b" := by decide
example : strContains " #include <...> search starts here: x" startMarker = true := by decide
example : strTrim (stripParenSuffix "/usr/include/c++/11 (framework directory)") = "/usr/include/c++/11" := by decide
example : strTrim (stripParenSuffix "/a/(b)/c (framework directory)") = "/a/" := by decide
example : stripParenSuffix "/plain/path" = "/plain/path" := by decide
example :
    parse_include_dirs
      "#include <...> search starts here:\n /usr/include\n /usr/local/include (framework directory)\nEnd of search list.\n"
      = Except.ok ["/usr/include", "/usr/local/include"] := by rfl
example :
    parse_include_dirs "End of search list.\n#include <...> search starts here:\n/usr/include\nEnd of search list.\n"
      = Except.error noDirsMsg := by rfl
example : get_windows_include_dirs (some "C:\\foo;;C:\\bar\\baz")
    = Except.ok ["C:/foo", "C:/bar/baz"] := by rfl
example : get_windows_include_dirs (some ";;;") = Except.ok [] := by rfl
example : is_msvc_like_compiler "CL.EXE" = false := by decide
example : is_msvc_like_compiler "/opt/llvm/bin/clang-cl" = true := by decide
example : is_msvc_like_compiler "cl.exe" = true := by decide
example : fileName "a/b/" = some "b" := by decide

/-! ### Helper lemmas -/

theorem normalizeSlashes_data (s : String) :
    (normalizeSlashes s).data = s.data.map slashChar := rfl

theorem normalizeSlashes_ne_empty (s : String) (h : s ≠ "") :
    normalizeSlashes s ≠ "" := by
  intro hc
  apply h
  apply String.ext
  have h3 := congrArg String.data hc
  rw [normalizeSlashes_data] at h3
  exact List.map_eq_nil_iff.mp h3

theorem hasBackslash_normalizeSlashes (s : String) :
    hasBackslash (normalizeSlashes s) = false := by
  show (s.data.map slashChar).any (fun c => c == '\\') = false
  rw [List.any_map, List.any_eq_false]
  intro c _
  simp only [Function.comp]
  by_cases h : c = '\\'
  · subst h
    simp [slashChar]
  · simp [slashChar, h]

theorem parseLines_no_start (ls : List String) (acc : List String)
    (h : ∀ l ∈ ls, strContains (strTrim l) startMarker = false) :
    parseLines ls false acc = acc := by
  induction ls with
  | nil => rfl
  | cons l rest ih =>
    have hl : strContains (strTrim l) startMarker = false :=
      h l (List.mem_cons_self _ _)
    have hrest := ih (fun x hx => h x (List.mem_cons_of_mem _ hx))
    by_cases he : strContains (strTrim l) endMarker = true
    · simp [parseLines, hl, he]
    · simp [parseLines, hl, he, hrest]

theorem parseFromLines_ok_ne_nil (ls : List String) (xs : List String)
    (h : parseFromLines ls = Except.ok xs) : xs ≠ [] := by
  unfold parseFromLines at h
  by_cases hd : parseLines ls false [] = []
  · rw [if_pos hd] at h
    exact Except.noConfusion h
  · rw [if_neg hd] at h
    injection h with h'
    exact h' ▸ hd

theorem parseFromLines_ok_eq (ls : List String) (xs : List String)
    (h : parseFromLines ls = Except.ok xs) :
    xs = parseLines ls false [] := by
  unfold parseFromLines at h
  by_cases hd : parseLines ls false [] = []
  · rw [if_pos hd] at h
    exact Except.noConfusion h
  · rw [if_neg hd] at h
    injection h with h'
    exact h'.symm

theorem parseLines_entries (ls : List String) (inSec : Bool) (acc : List String)
    (hacc : ∀ x ∈ acc, x ≠ "" ∧ hasBackslash x = false) :
    ∀ x ∈ parseLines ls inSec acc, x ≠ "" ∧ hasBackslash x = false := by
  induction ls generalizing inSec acc with
  | nil => simpa [parseLines] using hacc
  | cons l rest ih =>
    simp only [parseLines]
    split
    · exact ih true acc hacc
    · split
      · exact hacc
      · split
        · split
          · refine ih inSec _ ?_
            intro x hx
            rcases List.mem_append.mp hx with hx | hx
            · exact hacc x hx
            · rcases List.mem_singleton.mp hx with rfl
              constructor
              · exact normalizeSlashes_ne_empty _ (by assumption)
              · exact hasBackslash_normalizeSlashes _
          · exact ih inSec acc hacc
        · exact ih inSec acc hacc

theorem parseLines_section (eLine : String)
    (he1 : strContains (strTrim eLine) startMarker = false)
    (he2 : strContains (strTrim eLine) endMarker = true)
    (ls : List String)
    (hl : ∀ l ∈ ls, strTrim l ≠ "" ∧ strContains (strTrim l) startMarker = false ∧
          strContains (strTrim l) endMarker = false ∧
          strTrim (stripParenSuffix (strTrim l)) ≠ "") :
    ∀ acc : List String,
      parseLines (ls ++ [eLine]) true acc
        = acc ++ ls.map (fun l => normalizeSlashes (strTrim (stripParenSuffix (strTrim l)))) := by
  induction ls with
  | nil =>
    intro acc
    simp [parseLines, he1, he2]
  | cons l rest ih =>
    intro acc
    obtain ⟨h1, h2, h3, h4⟩ := hl l (List.mem_cons_self _ _)
    have ihr := ih (fun x hx => hl x (List.mem_cons_of_mem _ hx))
    simp only [List.cons_append, parseLines, h2, h3, h1, h4]
    simp only [Bool.false_eq_true, if_false, ne_eq, not_false_iff, and_true, if_true,
      true_and]
    rw [if_pos h1, if_pos h4]
    simp only [List.append_eq]
    rw [ihr (acc ++ [normalizeSlashes (strTrim (stripParenSuffix (strTrim l)))])]
    simp

theorem startMarker_has_start : strContains (strTrim startMarker) startMarker = true := by
  decide

theorem endMarker_no_start : strContains (strTrim endMarker) startMarker = false := by
  decide

theorem endMarker_has_end : strContains (strTrim endMarker) endMarker = true := by
  decide

theorem parseLines_start_cons (l : String) (ls : List String) (inSec : Bool)
    (acc : List String) (h : strContains (strTrim l) startMarker = true) :
    parseLines (l :: ls) inSec acc = parseLines ls true acc := by
  simp [parseLines, h]

theorem parseLines_break (l : String) (ls : List String) (inSec : Bool)
    (acc : List String)
    (h1 : strContains (strTrim l) startMarker = false)
    (h2 : strContains (strTrim l) endMarker = true) :
    parseLines (l :: ls) inSec acc = acc := by
  simp [parseLines, h1, h2]

theorem parseLines_push (l : String) (ls : List String) (acc : List String)
    (h1 : strContains (strTrim l) startMarker = false)
    (h2 : strContains (strTrim l) endMarker = false)
    (ht : strTrim l ≠ "")
    (hp : strTrim (stripParenSuffix (strTrim l)) ≠ "") :
    parseLines (l :: ls) true acc
      = parseLines ls true (acc ++ [normalizeSlashes (strTrim (stripParenSuffix (strTrim l)))]) := by
  simp [parseLines, h1, h2, ht, hp]

theorem parseLines_skip_empty_path (l : String) (ls : List String) (acc : List String)
    (h1 : strContains (strTrim l) startMarker = false)
    (h2 : strContains (strTrim l) endMarker = false)
    (hp : strTrim (stripParenSuffix (strTrim l)) = "") :
    parseLines (l :: ls) true acc = parseLines ls true acc := by
  by_cases ht : strTrim l = ""
  · simp only [parseLines]
    rw [if_neg (by rw [h1]; exact Bool.false_ne_true),
      if_neg (by rw [h2]; exact Bool.false_ne_true),
      if_neg (by intro hc; exact hc.2 ht)]
  · simp only [parseLines]
    rw [if_neg (by rw [h1]; exact Bool.false_ne_true),
      if_neg (by rw [h2]; exact Bool.false_ne_true),
      if_pos ⟨by trivial, ht⟩, if_neg (by simpa using hp)]

/-! ### Claims -/

/-- C1: for every diagnostic text whose lines are a line containing the
start marker `#include <...> search starts here:`, followed by a nonempty
run of directory lines (each non-empty after trimming, free of both
markers, and still non-empty after annotation stripping), followed by a
line containing `End of search list.`, the parser returns `Ok` with
exactly those directory lines, each annotation-stripped and
backslash-normalized, in their original order — no sorting, no
deduplication. -/
theorem parser_returns_wellformed_section_exactly
    (s sLine eLine : String) (ls : List String)
    (hsplit : rustLines s = sLine :: (ls ++ [eLine]))
    (hs : strContains (strTrim sLine) startMarker = true)
    (he1 : strContains (strTrim eLine) startMarker = false)
    (he2 : strContains (strTrim eLine) endMarker = true)
    (hne : ls ≠ [])
    (hl : ∀ l ∈ ls, strTrim l ≠ "" ∧ strContains (strTrim l) startMarker = false ∧
          strContains (strTrim l) endMarker = false ∧
          strTrim (stripParenSuffix (strTrim l)) ≠ "") :
    parse_include_dirs s
      = Except.ok (ls.map (fun l => normalizeSlashes (strTrim (stripParenSuffix (strTrim l))))) := by
  unfold parse_include_dirs
  rw [hsplit]
  unfold parseFromLines
  have hstep : parseLines (sLine :: (ls ++ [eLine])) false []
      = ls.map (fun l => normalizeSlashes (strTrim (stripParenSuffix (strTrim l)))) := by
    simp only [parseLines, hs, if_true]
    rw [parseLines_section eLine he1 he2 ls hl []]
    simp
  rw [hstep, if_neg (by simpa using hne)]

/-- C1 witness: a concrete well-formed diagnostic text. -/
theorem parser_returns_wellformed_section_exactly_witness :
    parse_include_dirs
        "#include <...> search starts here:\n /usr/include\n /usr/lib/x (framework directory)\nEnd of search list.\n"
      = Except.ok ["/usr/include", "/usr/lib/x"] := by
  have h := parser_returns_wellformed_section_exactly
    "#include <...> search starts here:\n /usr/include\n /usr/lib/x (framework directory)\nEnd of search list.\n"
    startMarker endMarker [" /usr/include", " /usr/lib/x (framework directory)"]
    (by rfl) (by decide) (by decide) (by decide) (by decide) (by decide)
  exact h.trans rfl

/-- C4: the parser fails with the `noDirsMsg` error when the start marker
never occurs in any line, and on a start marker immediately followed by
the end marker; it never returns a successful empty list. -/
theorem parser_fails_without_entries :
    (∀ s : String,
       (∀ l ∈ rustLines s, strContains (strTrim l) startMarker = false) →
       parse_include_dirs s = Except.error noDirsMsg)
    ∧ parse_include_dirs (startMarker ++ "\n" ++ endMarker) = Except.error noDirsMsg
    ∧ (∀ (s : String) (xs : List String),
       parse_include_dirs s = Except.ok xs → xs ≠ []) := by
  refine ⟨?_, by rfl, ?_⟩
  · intro s h
    have h0 : parseLines (rustLines s) false [] = [] :=
      parseLines_no_start _ _ h
    unfold parse_include_dirs parseFromLines
    rw [h0]
    rfl
  · intro s xs h
    exact parseFromLines_ok_ne_nil _ _ h

/-- C4 witness: concrete text with no start marker anywhere. -/
theorem parser_fails_without_entries_witness :
    parse_include_dirs "gcc version 11.4.0\nCOLLECT_GCC=gcc\nEnd of search list." = Except.error noDirsMsg :=
  parser_fails_without_entries.1 "gcc version 11.4.0\nCOLLECT_GCC=gcc\nEnd of search list." (by decide)

/-- C10: every string in every successful result — of the output parser or
of the environment-variable reader — is non-empty and contains no
backslash character. -/
theorem success_entries_nonempty_no_backslash :
    (∀ (s : String) (xs : List String), parse_include_dirs s = Except.ok xs →
       ∀ x ∈ xs, x ≠ "" ∧ hasBackslash x = false)
    ∧ (∀ (v : Option String) (xs : List String),
       get_windows_include_dirs v = Except.ok xs →
       ∀ x ∈ xs, x ≠ "" ∧ hasBackslash x = false) := by
  constructor
  · intro s xs h x hx
    have hxs : xs = parseLines (rustLines s) false [] := parseFromLines_ok_eq _ _ h
    subst hxs
    refine parseLines_entries _ _ _ ?_ x hx
    intro y hy
    simp at hy
  · intro v xs h x hx
    cases v with
    | none => exact Except.noConfusion h
    | some w =>
      have hxs : xs = (((splitAtChar ';' w.data []).map String.mk).filter
          (fun seg => seg != "")).map normalizeSlashes := by
        unfold get_windows_include_dirs at h
        injection h with h'
        exact h'.symm
      subst hxs
      rcases List.mem_map.mp hx with ⟨y, hy, rfl⟩
      have hyne : y ≠ "" := by
        have := (List.mem_filter.mp hy).2
        simpa using this
      exact ⟨normalizeSlashes_ne_empty _ hyne, hasBackslash_normalizeSlashes _⟩

/-- C10 witness: a concrete successful parse and a concrete entry of it. -/
theorem success_entries_nonempty_no_backslash_witness :
    ("C:/usr/include" : String) ≠ "" ∧ hasBackslash "C:/usr/include" = false :=
  success_entries_nonempty_no_backslash.1
    "#include <...> search starts here:\nC:\\usr\\include\nEnd of search list.\n"
    ["C:/usr/include"] (by rfl) "C:/usr/include" (by simp)

/-- C2 counterexample: a text in which an `End of search list.` line
precedes the start marker, followed by a well-formed search section.  The
claim predicts that the early end-marker line is ignored and the later
section is parsed to `Ok ["/usr/include"]`; the code instead breaks out of
the scan at that first line and fails. -/
theorem outside_end_marker_not_ignored_cex :
    parse_include_dirs
        "End of search list.\n#include <...> search starts here:\n/usr/include\nEnd of search list.\n"
      = Except.error noDirsMsg
    ∧ parse_include_dirs
        "End of search list.\n#include <...> search starts here:\n/usr/include\nEnd of search list.\n"
      ≠ Except.ok ["/usr/include"] := by
  refine ⟨rfl, ?_⟩
  intro h
  have h0 : (Except.error noDirsMsg : Except String (List String))
      = Except.ok ["/usr/include"] :=
    (show parse_include_dirs
        "End of search list.\n#include <...> search starts here:\n/usr/include\nEnd of search list.\n"
      = Except.error noDirsMsg from rfl).symm.trans h
  exact Except.noConfusion h0

/-- C2 (amended): while in the `Outside` state, a line containing neither
marker is ignored entirely; but a line containing `End of search list.`
(and not the start marker) terminates scanning immediately even though the
start marker has not been seen, so the parser fails and any well-formed
search section appearing later in the text is not parsed. -/
theorem outside_lines_behavior :
    (∀ (l : String) (ls : List String),
       strContains (strTrim l) startMarker = false →
       strContains (strTrim l) endMarker = false →
       parseFromLines (l :: ls) = parseFromLines ls)
    ∧ (∀ (l : String) (ls : List String),
       strContains (strTrim l) startMarker = false →
       strContains (strTrim l) endMarker = true →
       parseFromLines (l :: ls) = Except.error noDirsMsg) := by
  constructor
  · intro l ls h1 h2
    unfold parseFromLines
    have h0 : parseLines (l :: ls) false [] = parseLines ls false [] := by
      simp [parseLines, h1, h2]
    rw [h0]
  · intro l ls h1 h2
    unfold parseFromLines
    have h0 : parseLines (l :: ls) false [] = [] := by
      simp [parseLines, h1, h2]
    rw [h0]
    rfl

/-- C2 (amended) witness: prepending a marker-free banner line changes
nothing. -/
theorem outside_lines_behavior_witness :
    parseFromLines
        ["Target: x86_64-linux-gnu", "#include <...> search starts here:",
         "/usr/include", "End of search list."]
      = parseFromLines
        ["#include <...> search starts here:", "/usr/include", "End of search list."] :=
  outside_lines_behavior.1 "Target: x86_64-linux-gnu"
    ["#include <...> search starts here:", "/usr/include", "End of search list."]
    (by decide) (by decide)

/-- C3 counterexample: for the search-section line
`/a/(b)/c (framework directory)` the claim predicts the entry `/a/(b)/c`
(everything before the trailing annotation kept); the code's leftmost
regex match starts at the first `(` and runs to the end of the line, so
the parser returns `/a/` instead. -/
theorem paren_component_truncated_cex :
    parse_include_dirs
        "#include <...> search starts here:\n/a/(b)/c (framework directory)\nEnd of search list.\n"
      = Except.ok ["/a/"]
    ∧ parse_include_dirs
        "#include <...> search starts here:\n/a/(b)/c (framework directory)\nEnd of search list.\n"
      ≠ Except.ok ["/a/(b)/c"] := by
  refine ⟨rfl, ?_⟩
  intro h
  have h0 : (Except.ok ["/a/"] : Except String (List String))
      = Except.ok ["/a/(b)/c"] :=
    (show parse_include_dirs
        "#include <...> search starts here:\n/a/(b)/c (framework directory)\nEnd of search list.\n"
      = Except.ok ["/a/"] from rfl).symm.trans h
  injection h0 with h1
  injection h1 with h2
  exact absurd h2 (by decide)

/-- C3 (amended): for a candidate line inside the search section (already
trimmed, non-empty, free of both markers): if the line does not end with
`)` or contains no `(`, it passes through unchanged except for slash
normalization; if it ends with `)` and contains a `(`, everything from the
leftmost `(` to the end of the line is removed (re-trimming the
remainder), so a parenthesized component before a trailing annotation is
truncated as well, and the line is discarded when nothing remains. -/
theorem annotation_strip_behavior :
    (∀ t : String, strTrim t = t → t ≠ "" →
       strContains t startMarker = false →
       strContains t endMarker = false →
       (strEndsWith t ")" = false ∨ t.data.contains '(' = false) →
       parseFromLines [startMarker, t, endMarker] = Except.ok [normalizeSlashes t])
    ∧ (∀ t : String, strTrim t = t → t ≠ "" →
       strContains t startMarker = false →
       strContains t endMarker = false →
       strEndsWith t ")" = true → t.data.contains '(' = true →
       parseFromLines [startMarker, t, endMarker]
         = (if strTrim (String.mk (t.data.takeWhile (fun c => c != '('))) = ""
            then Except.error noDirsMsg
            else Except.ok [normalizeSlashes
              (strTrim (String.mk (t.data.takeWhile (fun c => c != '('))))])) := by
  constructor
  · intro t htrim hne h1 h2 h3
    have hstrip : stripParenSuffix t = t := by
      have hcond : (strEndsWith t ")" && t.data.contains '(') = false := by
        rcases h3 with h3 | h3
        · rw [h3, Bool.false_and]
        · rw [h3, Bool.and_false]
      unfold stripParenSuffix
      rw [if_neg (by rw [hcond]; exact Bool.false_ne_true)]
    have h0 : parseLines [startMarker, t, endMarker] false [] = [normalizeSlashes t] := by
      rw [parseLines_start_cons _ _ _ _ startMarker_has_start,
        parseLines_push t [endMarker] [] (by rw [htrim]; exact h1)
          (by rw [htrim]; exact h2) (by rw [htrim]; exact hne)
          (by rw [htrim, hstrip, htrim]; exact hne),
        parseLines_break _ _ _ _ endMarker_no_start endMarker_has_end,
        htrim, hstrip, htrim]
      rfl
    unfold parseFromLines
    rw [h0, if_neg (by simp)]
  · intro t htrim hne h1 h2 h4 h5
    have hstrip : stripParenSuffix t = String.mk (t.data.takeWhile (fun c => c != '(')) := by
      unfold stripParenSuffix
      rw [if_pos (by rw [h4, h5]; rfl)]
    by_cases hq : strTrim (String.mk (t.data.takeWhile (fun c => c != '('))) = ""
    · have h0 : parseLines [startMarker, t, endMarker] false [] = [] := by
        rw [parseLines_start_cons _ _ _ _ startMarker_has_start,
          parseLines_skip_empty_path t [endMarker] [] (by rw [htrim]; exact h1)
            (by rw [htrim]; exact h2) (by rw [htrim, hstrip]; exact hq)]
        exact parseLines_break _ _ _ _ endMarker_no_start endMarker_has_end
      unfold parseFromLines
      rw [h0, if_pos rfl, if_pos hq]
    · have h0 : parseLines [startMarker, t, endMarker] false []
          = [normalizeSlashes (strTrim (String.mk (t.data.takeWhile (fun c => c != '('))))] := by
        rw [parseLines_start_cons _ _ _ _ startMarker_has_start,
          parseLines_push t [endMarker] [] (by rw [htrim]; exact h1)
            (by rw [htrim]; exact h2) (by rw [htrim]; exact hne)
            (by rw [htrim, hstrip]; exact hq),
          parseLines_break _ _ _ _ endMarker_no_start endMarker_has_end,
          htrim, hstrip]
        rfl
      unfold parseFromLines
      rw [h0, if_neg (by simp), if_neg hq]

/-- C3 (amended) witness: a plain path line passes through unchanged. -/
theorem annotation_strip_behavior_witness :
    parseFromLines [startMarker, "/usr/include", endMarker]
      = Except.ok [normalizeSlashes "/usr/include"] :=
  annotation_strip_behavior.1 "/usr/include" (by decide) (by decide)
    (by decide) (by decide) (Or.inl (by decide))

/-- C5 counterexample: on a Windows platform with no compiler supplied and
`INCLUDE` containing nothing but separators, the core returns a successful
result with zero directories, contradicting "either a list with at least
one directory or a total failure". -/
theorem core_empty_success_cex :
    get_include_dirs ⟨true, false⟩ (some ";;")
        (fun _ => Except.error "not invoked") none
      = Except.ok [] := rfl

/-- C5 (amended): the subprocess strategy never returns a successful empty
list, and a successful empty list from the core can arise only from the
environment-variable strategy, on an `INCLUDE` value whose `;`-split
segments are all empty. -/
theorem core_empty_success_only_from_env :
    (∀ (spawn : Except String ProcessOutput) (xs : List String),
       get_compiler_include_dirs spawn = Except.ok xs → xs ≠ [])
    ∧ (∀ (plat : Platform) (includeVar : Option String)
         (run : String → Except String ProcessOutput) (compiler : Option String),
       get_include_dirs plat includeVar run compiler = Except.ok [] →
       ∃ v : String, includeVar = some v ∧
         ((splitAtChar ';' v.data []).map String.mk).filter (fun seg => seg != "") = []) := by
  have hsub : ∀ (spawn : Except String ProcessOutput) (xs : List String),
      get_compiler_include_dirs spawn = Except.ok xs → xs ≠ [] := by
    intro spawn xs h
    cases spawn with
    | error e => exact Except.noConfusion h
    | ok out => exact parseFromLines_ok_ne_nil _ _ h
  have henv : ∀ (includeVar : Option String),
      get_windows_include_dirs includeVar = Except.ok [] →
      ∃ v : String, includeVar = some v ∧
        ((splitAtChar ';' v.data []).map String.mk).filter (fun seg => seg != "") = [] := by
    intro includeVar h
    cases includeVar with
    | none => exact Except.noConfusion h
    | some v =>
      refine ⟨v, rfl, ?_⟩
      unfold get_windows_include_dirs at h
      injection h with h'
      exact List.map_eq_nil_iff.mp h'
  refine ⟨hsub, ?_⟩
  intro plat includeVar run compiler h
  unfold get_include_dirs at h
  by_cases hc1 : (plat.isWindows && compiler.isNone) = true
  · rw [if_pos hc1] at h
    exact henv _ h
  · rw [if_neg hc1] at h
    by_cases hc2 : (plat.isWindows && is_msvc_like_compiler
        (compiler.getD (if plat.isUnix = true then "/usr/bin/c++" else "c++"))) = true
    · rw [if_pos hc2] at h
      exact henv _ h
    · rw [if_neg hc2] at h
      exact absurd rfl (hsub _ _ h)

/-- C5 (amended) witness: a concrete subprocess success is nonempty. -/
theorem core_empty_success_only_from_env_witness :
    (["/usr/include"] : List String) ≠ [] :=
  core_empty_success_only_from_env.1
    (Except.ok ⟨0, "",
      "#include <...> search starts here:\n/usr/include\nEnd of search list.\n"⟩)
    ["/usr/include"] (by rfl)

/-- C6: the environment reader splits the `INCLUDE` value on `;`, discards
empty segments, normalizes every backslash to a forward slash in each
remaining segment, and returns the segments in order; in particular
`C:\foo;;C:\bar\baz` yields exactly `["C:/foo", "C:/bar/baz"]`, and no
sorting or deduplication happens. -/
theorem env_reader_split_filter_normalize :
    (∀ v : String, get_windows_include_dirs (some v)
        = Except.ok ((((splitAtChar ';' v.data []).map String.mk).filter
            (fun seg => seg != "")).map normalizeSlashes))
    ∧ get_windows_include_dirs (some "C:\\foo;;C:\\bar\\baz")
        = Except.ok ["C:/foo", "C:/bar/baz"]
    ∧ get_windows_include_dirs (some "b;a;b")
        = Except.ok ["b", "a", "b"] :=
  ⟨fun _ => rfl, rfl, rfl⟩

/-- C7: the environment reader fails (with the `envMissingMsg` error)
exactly when `INCLUDE` is unset; any set value yields a success, and a
value containing nothing but separators yields a successful empty list
rather than an error. -/
theorem env_reader_error_exactly_when_unset :
    get_windows_include_dirs none = Except.error envMissingMsg
    ∧ (∀ v : String, ∃ xs : List String,
        get_windows_include_dirs (some v) = Except.ok xs)
    ∧ get_windows_include_dirs (some ";;;") = Except.ok [] :=
  ⟨rfl, fun _ => ⟨_, rfl⟩, rfl⟩

/-- C8: the strategy selector's rules in evaluation order: (1) Windows
with no compiler supplied uses the environment-variable strategy; (2)
otherwise the compiler path resolves to the supplied path if present, else
`/usr/bin/c++` on Unix, else `c++`; (3) on Windows an MSVC-like resolved
filename (ending in `cl` or `cl.exe`, case-sensitively) falls back to the
environment-variable strategy; (4) otherwise the subprocess strategy runs
on the resolved path. -/
theorem strategy_selector_order :
    (∀ (plat : Platform) (includeVar : Option String)
       (run : String → Except String ProcessOutput),
       plat.isWindows = true →
       get_include_dirs plat includeVar run none = get_windows_include_dirs includeVar)
    ∧ (∀ (plat : Platform) (includeVar : Option String)
         (run : String → Except String ProcessOutput) (compiler : Option String),
       ¬(plat.isWindows = true ∧ compiler = none) →
       get_include_dirs plat includeVar run compiler
         = (if plat.isWindows = true
              ∧ is_msvc_like_compiler
                  (compiler.getD (if plat.isUnix = true then "/usr/bin/c++" else "c++")) = true
            then get_windows_include_dirs includeVar
            else get_compiler_include_dirs
              (run (compiler.getD (if plat.isUnix = true then "/usr/bin/c++" else "c++")))))
    ∧ is_msvc_like_compiler "cl" = true
    ∧ is_msvc_like_compiler "cl.exe" = true
    ∧ is_msvc_like_compiler "/opt/llvm/bin/clang-cl" = true
    ∧ is_msvc_like_compiler "CL" = false
    ∧ is_msvc_like_compiler "CL.EXE" = false
    ∧ is_msvc_like_compiler "/usr/bin/g++" = false := by
  refine ⟨?_, ?_, by decide, by decide, by decide, by decide, by decide, by decide⟩
  · intro plat includeVar run hw
    unfold get_include_dirs
    rw [if_pos (by rw [hw]; rfl)]
  · intro plat includeVar run compiler h
    unfold get_include_dirs
    cases compiler with
    | none =>
      have hw : plat.isWindows = false := by
        cases hval : plat.isWindows with
        | false => rfl
        | true => exact absurd ⟨hval, rfl⟩ h
      rw [hw]
      simp
    | some a =>
      rw [if_neg (by simp)]
      simp only [Option.getD_some]
      by_cases hmsvc : (plat.isWindows && is_msvc_like_compiler a) = true
      · rw [if_pos hmsvc, if_pos (by simpa [Bool.and_eq_true] using hmsvc)]
      · rw [if_neg hmsvc, if_neg (by simpa [Bool.and_eq_true] using hmsvc)]

/-- C8 witness: Windows with no compiler supplied reads the environment. -/
theorem strategy_selector_order_witness :
    get_include_dirs ⟨true, false⟩ (some "C:\\inc")
        (fun _ => Except.error "not invoked") none
      = get_windows_include_dirs (some "C:\\inc") :=
  strategy_selector_order.1 ⟨true, false⟩ (some "C:\\inc")
    (fun _ => Except.error "not invoked") rfl

/-- C9: the subprocess strategy's result is a function of the captured
diagnostic (stderr) text alone — equal stderr texts give equal results
whatever the exit status and standard output are — and a successful parse
happens even with a nonzero exit status and unrelated standard output. -/
theorem subprocess_result_depends_only_on_stderr :
    (∀ o1 o2 : ProcessOutput, o1.stderrText = o2.stderrText →
       get_compiler_include_dirs (Except.ok o1) = get_compiler_include_dirs (Except.ok o2))
    ∧ get_compiler_include_dirs (Except.ok ⟨1, "unrelated standard output",
        "#include <...> search starts here:\n/usr/include\nEnd of search list.\n"⟩)
      = Except.ok ["/usr/include"] := by
  refine ⟨?_, by rfl⟩
  intro o1 o2 h
  show parse_include_dirs o1.stderrText = parse_include_dirs o2.stderrText
  rw [h]

/-- C9 witness: two outputs differing in exit status and standard output
but sharing the stderr text parse identically. -/
theorem subprocess_result_depends_only_on_stderr_witness :
    get_compiler_include_dirs (Except.ok ⟨2, "alpha", "x"⟩)
      = get_compiler_include_dirs (Except.ok ⟨0, "beta", "x"⟩) :=
  subprocess_result_depends_only_on_stderr.1 ⟨2, "alpha", "x"⟩ ⟨0, "beta", "x"⟩ rfl
